import Mathlib

/-!
# Verification of the `no-db-verify` account service core

A shallow embedding of the repository's core (src/verify.rs, src/user.rs and
the handler glue in src/main.rs) together with proofs about it.

Modelling conventions:

* Bytes are `Nat`, byte strings are `List Nat`.
* The keyed MAC (`hmac::Hmac<sha3::Sha3_256>` keyed with the process-wide
  `SECRET_KEY`) is an abstract parameter `mac : List Nat → List Nat`; the
  cryptographic assumption "the MAC is collision free" is an explicit
  `Function.Injective mac` hypothesis where a theorem needs it (the symbolic
  model of the primitive).  Feeding the accumulator twice
  (`mac.input(a); mac.input(b)`) is MAC over the concatenation `a ++ b`, and
  `Mac::verify` is (constant-time) equality of the recomputed code with the
  transported tag.
* Timestamps (`chrono::DateTime<chrono::Utc>`) are `Nat` nanoseconds since the
  epoch; `chrono::Duration::hours(3)` is `threeHours` nanoseconds.  The
  `Display` rendering of a timestamp used as MAC input is modelled by an
  injective byte encoding of the instant (its decimal numeral); the concrete
  calendar format is immaterial to every claim proved here.
* `bcrypt::hash(pw, 4)` draws a random salt, so hashing is an abstract
  parameter `bhash : String → String`.
* The random `u64`/`u16` draws of `rand` are explicit arguments: a theorem
  quantifying over them covers every possible execution.
* `std::collections::HashMap<UserId, User>` is an association list
  `List (UserId × User)`; `HashMap::insert` keeps every entry with a different
  key and replaces any entry with the same key.
-/

/-- `u64::to_string` of `n` as ASCII bytes: auxiliary big-endian digit loop,
structurally recursive on a fuel argument so that it reduces in the kernel. -/
def decDigitsAux : Nat → Nat → List Nat
  | 0, _ => []
  | fuel + 1, n => if n = 0 then [] else decDigitsAux fuel (n / 10) ++ [n % 10 + 48]

/-- `u64::to_string` (and `Nat` decimal rendering generally) as ASCII bytes. -/
def natAscii (n : Nat) : List Nat :=
  if n = 0 then [48] else decDigitsAux (n + 1) n

/-- Decimal decoder, inverse to `natAscii`; used only to prove injectivity. -/
def decValue (l : List Nat) : Nat :=
  l.foldl (fun acc d => acc * 10 + (d - 48)) 0

/-- `str::as_bytes` of an email: the code points of its characters (emails are
ASCII, where code points and UTF-8 bytes agree). -/
def strBytes (s : String) : List Nat :=
  s.data.map Char.toNat

/-- The `Display` rendering of a `chrono::DateTime<chrono::Utc>` fed to the
MAC, modelled as an injective byte encoding of the instant (see header). -/
def timeAscii (t : Nat) : List Nat :=
  natAscii t

/-- `chrono::Duration::hours(3)` in nanoseconds. -/
def threeHours : Nat := 3 * 3600 * 1000 * 1000 * 1000

/-- `user::UserId` (`u64`). -/
abbrev UserId := Nat

/-- `user::User`. -/
structure User where
  id : UserId
  name : String
  email : String
  bcrypt_password : String
deriving DecidableEq, Repr

/-- `User::reset_password`: overwrite the stored bcrypt hash with the hash of
the new plaintext (`bhash` stands for `bcrypt::hash(·, 4)`). -/
def User.reset_password (bhash : String → String) (u : User) (new_password : String) : User :=
  User.mk u.id u.name u.email (bhash new_password)

/-- `verify::CreateParams`. -/
structure CreateParams where
  email : String
  token : List Nat
deriving DecidableEq, Repr

/-- `CreateParams::accum_mac`'s accumulated input: the email's bytes. -/
def CreateParams.macInput (email : String) : List Nat :=
  strBytes email

/-- `CreateParams::verify`: recompute the MAC over the candidate email and
compare with the transported token. -/
def CreateParams.verify (mac : List Nat → List Nat) (email : String) (params : CreateParams) :
    Bool :=
  decide (mac (CreateParams.macInput email) = params.token)

/-- `From<&str> for CreateParams`: issue a create token for an email. -/
def CreateParams.ofEmail (mac : List Nat → List Nat) (email : String) : CreateParams :=
  CreateParams.mk email (mac (CreateParams.macInput email))

/-- `verify::ResetParams`. -/
structure ResetParams where
  user_id : UserId
  expires : Nat
  token : List Nat
deriving DecidableEq, Repr

/-- `ResetParams::accum_mac`'s accumulated input: the bytes of
`user.id.to_string()` followed by the bytes of `expires.to_string()`. -/
def ResetParams.macInput (id : UserId) (expires : Nat) : List Nat :=
  natAscii id ++ timeAscii expires

/-- `ResetParams::verify`: reject if `now > expires` (note: strict), else
recompute the MAC from the looked-up user's own id and the transported expiry
and compare with the transported token. -/
def ResetParams.verify (mac : List Nat → List Nat) (now : Nat) (user : User)
    (params : ResetParams) : Bool :=
  if params.expires < now then false
  else decide (mac (ResetParams.macInput user.id params.expires) = params.token)

/-- `From<&User> for ResetParams`: issue a reset token for a user at time
`now`, expiring three hours later. -/
def ResetParams.ofUser (mac : List Nat → List Nat) (now : Nat) (user : User) : ResetParams :=
  ResetParams.mk user.id (now + threeHours)
    (mac (ResetParams.macInput user.id (now + threeHours)))

/-! ## Injectivity of the byte encodings -/

theorem decValue_append_digit (l : List Nat) (d : Nat) :
    decValue (l ++ [d]) = decValue l * 10 + (d - 48) := by
  simp [decValue, List.foldl_append]

theorem decValue_decDigitsAux (fuel n : Nat) (h : n ≤ fuel) :
    decValue (decDigitsAux fuel n) = n := by
  induction fuel generalizing n with
  | zero =>
    interval_cases n
    simp [decDigitsAux, decValue]
  | succ fuel ih =>
    by_cases hn : n = 0
    · simp [decDigitsAux, hn, decValue]
    · have hdiv : n / 10 ≤ fuel := by
        have : n / 10 < n := Nat.div_lt_self (Nat.pos_of_ne_zero hn) (by norm_num)
        omega
      rw [decDigitsAux, if_neg hn, decValue_append_digit, ih _ hdiv]
      omega

theorem decValue_natAscii (n : Nat) : decValue (natAscii n) = n := by
  by_cases hn : n = 0
  · simp [natAscii, hn, decValue]
  · rw [natAscii, if_neg hn]
    exact decValue_decDigitsAux (n + 1) n (Nat.le_succ n)

theorem natAscii_injective : Function.Injective natAscii := by
  intro a b h
  have := congrArg decValue h
  rwa [decValue_natAscii, decValue_natAscii] at this

theorem strBytes_injective : Function.Injective strBytes := by
  intro a b h
  have hdata : a.data = b.data := by
    refine List.map_injective_iff.mpr ?_ h
    intro c d hcd
    exact Char.eq_of_val_eq (UInt32.eq_of_toBitVec_eq (BitVec.eq_of_toNat_eq hcd))
  cases a
  cases b
  exact congrArg String.mk hdata

theorem resetMacInput_id_inj (a b : UserId) (e : Nat)
    (h : ResetParams.macInput a e = ResetParams.macInput b e) : a = b := by
  apply natAscii_injective
  exact List.append_cancel_right h

/-! ## The user store (src/user.rs) -/

/-- `user::UserBuilder`. -/
structure UserBuilder where
  requested_name : Option String
  requested_email : Option String
  requested_password : Option String
deriving DecidableEq, Repr

/-- `UserBuilder::new`. -/
def UserBuilder.new : UserBuilder :=
  UserBuilder.mk none none none

/-- `UserBuilder::with_name`. -/
def UserBuilder.with_name (b : UserBuilder) (name : String) : UserBuilder :=
  UserBuilder.mk (some name) b.requested_email b.requested_password

/-- `UserBuilder::with_email`. -/
def UserBuilder.with_email (b : UserBuilder) (email : String) : UserBuilder :=
  UserBuilder.mk b.requested_name (some email) b.requested_password

/-- `UserBuilder::with_password`. -/
def UserBuilder.with_password (b : UserBuilder) (password : String) : UserBuilder :=
  UserBuilder.mk b.requested_name b.requested_email (some password)

/-- `UserBuilder::build`: `None` unless name, email and password are all set;
`ident` is the value drawn from `rand::thread_rng` for the new id. -/
def UserBuilder.build (b : UserBuilder) (bhash : String → String) (ident : UserId) :
    Option User :=
  b.requested_name.bind fun name =>
  b.requested_email.bind fun email =>
  b.requested_password.bind fun password =>
  some (User.mk ident name email (bhash password))

/-- `user::UserTable` (`HashMap<UserId, User>`), as an association list. -/
abbrev UserTable := List (UserId × User)

/-- `HashMap::insert`: the key now maps to the new value; entries with other
keys are untouched; any previous entry with the same key is dropped. -/
def UserTable.insertEntry (t : UserTable) (k : UserId) (u : User) : UserTable :=
  (k, u) :: t.filter (fun p => p.1 != k)

/-- `UserDatabase::add_user`: build the pending user, fail (store untouched)
when some stored account already has its email, otherwise insert.  Returns the
`Result<(), ()>` together with the post-state of the (mutex-guarded) table. -/
def UserDatabase.add_user (bhash : String → String) (ident : UserId) (b : UserBuilder)
    (t : UserTable) : Except Unit Unit × UserTable :=
  match b.build bhash ident with
  | none => (Except.error (), t)
  | some real_user =>
    if t.any (fun p => p.2.email == real_user.email) then (Except.error (), t)
    else (Except.ok (), t.insertEntry real_user.id real_user)

/-- The password-reset mutation of the store (`get_mut` on the id followed by
`User::reset_password`, as in `reset_password_post_handler`). -/
def UserTable.resetPasswordDb (bhash : String → String) (t : UserTable) (i : UserId)
    (new_password : String) : UserTable :=
  t.map fun p => if p.1 = i then (p.1, p.2.reset_password bhash new_password) else p

/-- One triple of `rand::thread_rng` draws made by `User::from`: a `u64` for
the password, a `u16` for the email and a `u64` for the id. -/
structure Draw where
  pw : Nat
  emailN : Nat
  ident : Nat
deriving DecidableEq, Repr

/-- `User::from(thread_rnd, name)`. -/
def User.fromDraw (bhash : String → String) (d : Draw) (name : String) : User :=
  User.mk d.ident name ("user-" ++ toString d.emailN ++ "@spookysoftware.dev")
    (bhash (toString d.pw))

/-- `UserDatabase::create_test_db`, parameterised by the six draw triples; the
sixth user ("Neo") has its drawn id overwritten with `1`. -/
def UserDatabase.create_test_db (bhash : String → String) (d1 d2 d3 d4 d5 d6 : Draw) :
    UserTable :=
  let u1 := User.fromDraw bhash d1 "Eric"
  let u2 := User.fromDraw bhash d2 "Linus"
  let u3 := User.fromDraw bhash d3 "Michelle"
  let u4 := User.fromDraw bhash d4 "Rogan"
  let u5 := User.fromDraw bhash d5 "Lily"
  let neo0 := User.fromDraw bhash d6 "Neo"
  let neo := User.mk 1 neo0.name neo0.email neo0.bcrypt_password
  (((((UserTable.insertEntry [] u1.id u1).insertEntry u2.id u2).insertEntry
    u3.id u3).insertEntry u4.id u4).insertEntry u5.id u5).insertEntry 1 neo

/-- No two stored accounts share an email. -/
def EmailsDistinct (t : UserTable) : Prop :=
  (t.map fun p => p.2.email).Pairwise (· ≠ ·)

instance (t : UserTable) : Decidable (EmailsDistinct t) := by
  unfold EmailsDistinct
  infer_instance

/-- One mutation of the store: an `add_user` call (any builder, any random id
draw) or a password reset (any id, any new password). -/
inductive DbStep : UserTable → UserTable → Prop
  | add (bhash : String → String) (ident : UserId) (b : UserBuilder) (t : UserTable) :
      DbStep t (UserDatabase.add_user bhash ident b t).2
  | reset (bhash : String → String) (i : UserId) (new_password : String) (t : UserTable) :
      DbStep t (t.resetPasswordDb bhash i new_password)

/-- States reachable from `t0` by any sequence of store mutations. -/
inductive ReachableFrom (t0 : UserTable) : UserTable → Prop
  | refl : ReachableFrom t0 t0
  | step {t t' : UserTable} : ReachableFrom t0 t → DbStep t t' → ReachableFrom t0 t'

/-! ## Concrete fixtures for witnesses and counterexamples -/

/-- The identity byte map: a concrete, trivially injective instance of the
abstract MAC parameter, used to evaluate theorems on concrete inputs. -/
def idMac : List Nat → List Nat := fun l => l

/-- A concrete instance of the abstract bcrypt parameter. -/
def idHash : String → String := fun s => s

/-- A concrete stored account. -/
def userA : User := User.mk 1 "Ann" "a@x.com" "hashA"

/-- A second concrete stored account, with a different id. -/
def userB : User := User.mk 2 "Bob" "b@x.com" "hashB"

/-- A concrete one-account store: id 5 owns the email a@x.com. -/
def tableW : UserTable := [(5, User.mk 5 "Eve" "a@x.com" "hashE")]

/-! ## The claims -/

/-- C1, counterexample: a reset token issued at time 0 expires exactly at
`threeHours`; verifying it at `now = threeHours` — expiry exactly equal to
now — returns `true`, because `ResetParams::verify` only rejects when
`now > expires` (strictly).  This contradicts the claim that expiry equal to
now counts as expired. -/
theorem resetVerify_at_exact_expiry_counterexample :
    (ResetParams.ofUser idMac 0 userA).expires = threeHours ∧
    ResetParams.verify idMac threeHours userA (ResetParams.ofUser idMac 0 userA) = true := by
  constructor
  · decide
  · decide

/-- C1 (amended): `ResetParams::verify` returns false whenever the current
time is strictly after the token's expiry; a validly issued token whose expiry
equals the current time exactly is still accepted. -/
theorem resetVerify_expiry_boundary_strict (mac : List Nat → List Nat) (now issued : Nat)
    (u : User) (p : ResetParams) (h : p.expires < now) :
    ResetParams.verify mac now u p = false ∧
    ResetParams.verify mac (issued + threeHours) u (ResetParams.ofUser mac issued u) = true := by
  constructor
  · simp [ResetParams.verify, h]
  · simp [ResetParams.verify, ResetParams.ofUser]

/-- C1 witness: the amended theorem applied at a concrete expired token and a
concrete exactly-at-expiry verification. -/
theorem resetVerify_expiry_boundary_strict_witness :
    (ResetParams.mk 1 100 []).expires < 101 ∧
    (ResetParams.verify idMac 101 userA (ResetParams.mk 1 100 []) = false ∧
     ResetParams.verify idMac (0 + threeHours) userA (ResetParams.ofUser idMac 0 userA) = true) :=
  ⟨by decide,
   resetVerify_expiry_boundary_strict idMac 101 0 userA (ResetParams.mk 1 100 []) (by decide)⟩

/-- C2: a reset token issued for account `A` fails `ResetParams::verify`
against any account `B` with a different id, because verification recomputes
the MAC from the looked-up account's own identifier (symbolic model: the MAC
is injective). -/
theorem resetVerify_no_cross_account_substitution (mac : List Nat → List Nat)
    (hinj : Function.Injective mac) (now issued : Nat) (A B : User) (hne : A.id ≠ B.id) :
    ResetParams.verify mac now B (ResetParams.ofUser mac issued A) = false := by
  unfold ResetParams.verify ResetParams.ofUser
  by_cases hexp : issued + threeHours < now
  · simp [hexp]
  · simp only [if_neg hexp, decide_eq_false_iff_not]
    intro heq
    exact hne (resetMacInput_id_inj A.id B.id (issued + threeHours) (hinj heq).symm)

/-- C2 witness: the theorem applied to the concrete accounts `userA` and
`userB` with the identity MAC. -/
theorem resetVerify_no_cross_account_substitution_witness :
    Function.Injective idMac ∧ userA.id ≠ userB.id ∧
    ResetParams.verify idMac 0 userB (ResetParams.ofUser idMac 0 userA) = false :=
  ⟨fun _ _ h => h, by decide,
   resetVerify_no_cross_account_substitution idMac (fun _ _ h => h) 0 0 userA userB (by decide)⟩

/-- C4: a create token issued for email `e` verifies true against `e` and
false against any different email (symbolic model: the MAC is injective). -/
theorem createVerify_roundtrip_and_email_binding (mac : List Nat → List Nat)
    (hinj : Function.Injective mac) (e e' : String) (hne : e' ≠ e) :
    CreateParams.verify mac e (CreateParams.ofEmail mac e) = true ∧
    CreateParams.verify mac e' (CreateParams.ofEmail mac e) = false := by
  constructor
  · simp [CreateParams.verify, CreateParams.ofEmail]
  · simp only [CreateParams.verify, CreateParams.ofEmail, decide_eq_false_iff_not]
    intro heq
    exact hne (strBytes_injective (hinj heq))

/-- C4 witness: the theorem applied to the concrete emails a@x.com and
b@x.com with the identity MAC. -/
theorem createVerify_roundtrip_and_email_binding_witness :
    Function.Injective idMac ∧ "b@x.com" ≠ "a@x.com" ∧
    (CreateParams.verify idMac "a@x.com" (CreateParams.ofEmail idMac "a@x.com") = true ∧
     CreateParams.verify idMac "b@x.com" (CreateParams.ofEmail idMac "a@x.com") = false) :=
  ⟨fun _ _ h => h, by decide,
   createVerify_roundtrip_and_email_binding idMac (fun _ _ h => h) "a@x.com" "b@x.com"
     (by decide)⟩

/-- C5: a reset token issued at time `issued` carries expiry exactly
`issued + threeHours`, and verifies true against the same account at every
time strictly before that expiry (in particular right at issuance). -/
theorem resetIssue_expiry_and_verify_before_expiry (mac : List Nat → List Nat)
    (issued now : Nat) (u : User) (h : now < (ResetParams.ofUser mac issued u).expires) :
    (ResetParams.ofUser mac issued u).expires = issued + threeHours ∧
    ResetParams.verify mac now u (ResetParams.ofUser mac issued u) = true := by
  refine ⟨rfl, ?_⟩
  unfold ResetParams.verify
  rw [if_neg (Nat.lt_asymm h)]
  simp [ResetParams.ofUser]

/-- C5 witness: the theorem applied at issuance time 0 and verification time
0 (immediately after issuance) for the concrete account `userA`. -/
theorem resetIssue_expiry_and_verify_before_expiry_witness :
    (0 : Nat) < (ResetParams.ofUser idMac 0 userA).expires ∧
    ((ResetParams.ofUser idMac 0 userA).expires = 0 + threeHours ∧
     ResetParams.verify idMac 0 userA (ResetParams.ofUser idMac 0 userA) = true) :=
  ⟨by decide, resetIssue_expiry_and_verify_before_expiry idMac 0 0 userA (by decide)⟩

/-- C9: `CreateParams::verify` never reads the `email` field stored inside the
params — two params values with the same token give the same verdict against
any candidate email. -/
theorem createVerify_ignores_stored_email (mac : List Nat → List Nat) (email : String)
    (p1 p2 : CreateParams) (h : p1.token = p2.token) :
    CreateParams.verify mac email p1 = CreateParams.verify mac email p2 := by
  simp [CreateParams.verify, h]

/-- C9 witness: the theorem applied to two concrete params sharing a token but
with different stored emails. -/
theorem createVerify_ignores_stored_email_witness :
    (CreateParams.mk "a@x.com" [1, 2]).token = (CreateParams.mk "zzz" [1, 2]).token ∧
    CreateParams.verify idMac "a@x.com" (CreateParams.mk "a@x.com" [1, 2]) =
      CreateParams.verify idMac "a@x.com" (CreateParams.mk "zzz" [1, 2]) :=
  ⟨rfl, createVerify_ignores_stored_email idMac "a@x.com" (CreateParams.mk "a@x.com" [1, 2])
    (CreateParams.mk "zzz" [1, 2]) rfl⟩

/-- C10: `ResetParams::verify` never reads the `user_id` field stored inside
the params — two params values with the same expiry and token give the same
verdict against any user at any time. -/
theorem resetVerify_ignores_stored_user_id (mac : List Nat → List Nat) (now : Nat) (u : User)
    (p1 p2 : ResetParams) (hexp : p1.expires = p2.expires) (htok : p1.token = p2.token) :
    ResetParams.verify mac now u p1 = ResetParams.verify mac now u p2 := by
  simp [ResetParams.verify, hexp, htok]

/-- C10 witness: the theorem applied to two concrete params sharing expiry and
token but with different stored user ids. -/
theorem resetVerify_ignores_stored_user_id_witness :
    ((ResetParams.mk 1 50 [9]).expires = (ResetParams.mk 77 50 [9]).expires ∧
     (ResetParams.mk 1 50 [9]).token = (ResetParams.mk 77 50 [9]).token) ∧
    ResetParams.verify idMac 0 userA (ResetParams.mk 1 50 [9]) =
      ResetParams.verify idMac 0 userA (ResetParams.mk 77 50 [9]) :=
  ⟨⟨rfl, rfl⟩, resetVerify_ignores_stored_user_id idMac 0 userA (ResetParams.mk 1 50 [9])
    (ResetParams.mk 77 50 [9]) rfl rfl⟩

/-- If `UserBuilder::build` succeeds, the built user carries the drawn id. -/
theorem UserBuilder.build_id (b : UserBuilder) (bhash : String → String) (ident : UserId)
    (u : User) (h : b.build bhash ident = some u) : u.id = ident := by
  cases b with
  | mk n e p =>
    cases n <;> cases e <;> cases p <;> simp [UserBuilder.build] at h
    rw [← h]

/-- C3: adding a fully specified pending account whose email already belongs
to some stored account fails and leaves the store untouched; if no stored
account has that email, the account is inserted and the call succeeds. -/
theorem addUser_duplicate_email_check (bhash : String → String) (ident : UserId)
    (name email password : String) (t : UserTable) :
    ((∃ p ∈ t, p.2.email = email) →
      UserDatabase.add_user bhash ident
          (UserBuilder.mk (some name) (some email) (some password)) t
        = (Except.error (), t)) ∧
    ((∀ p ∈ t, p.2.email ≠ email) →
      UserDatabase.add_user bhash ident
          (UserBuilder.mk (some name) (some email) (some password)) t
        = (Except.ok (), t.insertEntry ident (User.mk ident name email (bhash password)))) := by
  constructor
  · rintro ⟨p, hp, hemail⟩
    have hany : t.any (fun q => q.2.email == email) = true :=
      List.any_eq_true.mpr ⟨p, hp, by simp [hemail]⟩
    simp [UserDatabase.add_user, UserBuilder.build, hany]
  · intro hall
    have hany : t.any (fun q => q.2.email == email) = false := by
      rw [List.any_eq_false]
      intro p hp
      simp [hall p hp]
    simp [UserDatabase.add_user, UserBuilder.build, hany]

/-- C3 witness: the theorem applied to the concrete store `tableW`, once with
the duplicate email a@x.com and once with the fresh email b@x.com. -/
theorem addUser_duplicate_email_check_witness :
    ((∃ p ∈ tableW, p.2.email = "a@x.com") ∧
      UserDatabase.add_user idHash 7 (UserBuilder.mk (some "N") (some "a@x.com") (some "pw"))
          tableW
        = (Except.error (), tableW)) ∧
    ((∀ p ∈ tableW, p.2.email ≠ "b@x.com") ∧
      UserDatabase.add_user idHash 7 (UserBuilder.mk (some "N") (some "b@x.com") (some "pw"))
          tableW
        = (Except.ok (), tableW.insertEntry 7 (User.mk 7 "N" "b@x.com" (idHash "pw")))) :=
  ⟨⟨by decide, (addUser_duplicate_email_check idHash 7 "N" "a@x.com" "pw" tableW).1 (by decide)⟩,
   ⟨by decide, (addUser_duplicate_email_check idHash 7 "N" "b@x.com" "pw" tableW).2 (by decide)⟩⟩

/-- C7, counterexample: the store holds account `userA` under id 1; an
`add_user` whose random id draw is also 1 (fresh email, so the duplicate check
passes) succeeds, and `HashMap::insert` replaces the old entry — `userA` is no
longer present afterwards, so a successful `add_user` can delete an account. -/
theorem addUser_id_collision_deletes_counterexample :
    (UserDatabase.add_user idHash 1 (UserBuilder.mk (some "N") (some "b@x.com") (some "pw"))
        [(1, userA)]).1 = Except.ok () ∧
    (1, userA) ∈ ([(1, userA)] : UserTable) ∧
    (1, userA) ∉ (UserDatabase.add_user idHash 1
        (UserBuilder.mk (some "N") (some "b@x.com") (some "pw")) [(1, userA)]).2 :=
  ⟨rfl, by decide, by decide⟩

/-- C7 (amended): a successful `add_user` preserves, unmodified, every
previously stored entry whose id differs from the id drawn for the new
account; only an entry under the colliding id can be replaced. -/
theorem addUser_preserves_other_ids (bhash : String → String) (ident : UserId)
    (b : UserBuilder) (t : UserTable)
    (hok : (UserDatabase.add_user bhash ident b t).1 = Except.ok ()) :
    ∀ p ∈ t, p.1 ≠ ident → p ∈ (UserDatabase.add_user bhash ident b t).2 := by
  intro p hp hne
  cases hbuild : b.build bhash ident with
  | none => simp [UserDatabase.add_user, hbuild] at hok
  | some u =>
    have hid : u.id = ident := UserBuilder.build_id b bhash ident u hbuild
    by_cases hdup : t.any (fun q => q.2.email == u.email) = true
    · simp [UserDatabase.add_user, hbuild, hdup] at hok
    · rw [Bool.not_eq_true] at hdup
      simp only [UserDatabase.add_user, hbuild, hdup, Bool.false_eq_true, if_false,
        UserTable.insertEntry]
      refine List.mem_cons_of_mem _ (List.mem_filter.mpr ⟨hp, ?_⟩)
      simp [hid, hne]

/-- C7 witness: the amended theorem applied to the concrete store `tableW`
(entry under id 5) and a successful insertion under the fresh id 7. -/
theorem addUser_preserves_other_ids_witness :
    (UserDatabase.add_user idHash 7 (UserBuilder.mk (some "N") (some "b@x.com") (some "pw"))
        tableW).1 = Except.ok () ∧
    (5, User.mk 5 "Eve" "a@x.com" "hashE") ∈ tableW ∧ (5 : UserId) ≠ 7 ∧
    (5, User.mk 5 "Eve" "a@x.com" "hashE") ∈
      (UserDatabase.add_user idHash 7 (UserBuilder.mk (some "N") (some "b@x.com") (some "pw"))
        tableW).2 :=
  ⟨rfl, by decide, by decide,
   addUser_preserves_other_ids idHash 7 (UserBuilder.mk (some "N") (some "b@x.com") (some "pw"))
     tableW rfl (5, User.mk 5 "Eve" "a@x.com" "hashE") (by decide) (by decide)⟩

/-- C8: `User::reset_password` overwrites exactly the stored bcrypt credential
(with the hash of the new plaintext); id, name and email are unchanged. -/
theorem resetPassword_frame (bhash : String → String) (u : User) (new_password : String) :
    (u.reset_password bhash new_password).id = u.id ∧
    (u.reset_password bhash new_password).name = u.name ∧
    (u.reset_password bhash new_password).email = u.email ∧
    (u.reset_password bhash new_password).bcrypt_password = bhash new_password :=
  ⟨rfl, rfl, rfl, rfl⟩

/-- Inserting an entry whose email is not held by any stored account keeps the
stored emails pairwise distinct. -/
theorem emailsDistinct_insertEntry (t : UserTable) (k : UserId) (u : User)
    (ht : EmailsDistinct t) (hu : ∀ p ∈ t, p.2.email ≠ u.email) :
    EmailsDistinct (t.insertEntry k u) := by
  unfold EmailsDistinct UserTable.insertEntry
  rw [List.map_cons, List.pairwise_cons]
  constructor
  · intro e he
    obtain ⟨p, hpf, rfl⟩ := List.mem_map.mp he
    exact fun hcontra => hu p (List.mem_of_mem_filter hpf) (hcontra ▸ rfl)
  · exact ht.sublist ((List.filter_sublist t).map _)

/-- `add_user` keeps the stored emails pairwise distinct. -/
theorem emailsDistinct_addUser (bhash : String → String) (ident : UserId) (b : UserBuilder)
    (t : UserTable) (ht : EmailsDistinct t) :
    EmailsDistinct (UserDatabase.add_user bhash ident b t).2 := by
  cases hbuild : b.build bhash ident with
  | none => simpa [UserDatabase.add_user, hbuild] using ht
  | some u =>
    by_cases hdup : t.any (fun q => q.2.email == u.email) = true
    · simpa [UserDatabase.add_user, hbuild, hdup] using ht
    · have hall : ∀ p ∈ t, p.2.email ≠ u.email := by
        intro p hp heq
        exact hdup (List.any_eq_true.mpr ⟨p, hp, by simp [heq]⟩)
      rw [Bool.not_eq_true] at hdup
      simp only [UserDatabase.add_user, hbuild, hdup, Bool.false_eq_true, if_false]
      exact emailsDistinct_insertEntry t u.id u ht hall

/-- A password reset keeps the stored email list unchanged, hence pairwise
distinct. -/
theorem emailsDistinct_resetPasswordDb (bhash : String → String) (t : UserTable) (i : UserId)
    (new_password : String) (ht : EmailsDistinct t) :
    EmailsDistinct (t.resetPasswordDb bhash i new_password) := by
  have hmap : (t.resetPasswordDb bhash i new_password).map (fun p => p.2.email)
      = t.map (fun p => p.2.email) := by
    unfold UserTable.resetPasswordDb
    rw [List.map_map]
    refine List.map_congr_left ?_
    intro p hp
    by_cases hpi : p.1 = i <;> simp [hpi, User.reset_password]
  unfold EmailsDistinct
  rw [hmap]
  exact ht

/-- C6, counterexample: `create_test_db` draws the six test emails at random
(a `u16` each); when the draws collide — here all six are 7 — the initial
store itself (reachable in zero steps) holds distinct accounts sharing an
email, so the no-duplicate-email invariant fails on a reachable state. -/
theorem reachable_duplicate_email_counterexample :
    ReachableFrom
      (UserDatabase.create_test_db idHash (Draw.mk 1 7 10) (Draw.mk 2 7 20) (Draw.mk 3 7 30)
        (Draw.mk 4 7 40) (Draw.mk 5 7 50) (Draw.mk 6 7 60))
      (UserDatabase.create_test_db idHash (Draw.mk 1 7 10) (Draw.mk 2 7 20) (Draw.mk 3 7 30)
        (Draw.mk 4 7 40) (Draw.mk 5 7 50) (Draw.mk 6 7 60)) ∧
    ¬ EmailsDistinct
      (UserDatabase.create_test_db idHash (Draw.mk 1 7 10) (Draw.mk 2 7 20) (Draw.mk 3 7 30)
        (Draw.mk 4 7 40) (Draw.mk 5 7 50) (Draw.mk 6 7 60)) :=
  ⟨ReachableFrom.refl, by decide⟩

/-- C6 (amended): if the initial store — in particular any `create_test_db`
store whose random email draws happen to be pairwise distinct — has no two
accounts sharing an email, then every store state reachable from it by
`add_user` and password-reset mutations also has no two accounts sharing an
email. -/
theorem reachable_emails_distinct (t0 t : UserTable) (h0 : EmailsDistinct t0)
    (h : ReachableFrom t0 t) : EmailsDistinct t := by
  induction h with
  | refl => exact h0
  | step _ hstep ih =>
    cases hstep with
    | add bhash ident b => exact emailsDistinct_addUser bhash ident b _ ih
    | reset bhash i new_password =>
      exact emailsDistinct_resetPasswordDb bhash _ i new_password ih

/-- C6 witness: a `create_test_db` store with pairwise distinct email draws,
followed by one successful `add_user` step; the amended theorem yields the
invariant for the resulting state. -/
theorem reachable_emails_distinct_witness :
    EmailsDistinct
      (UserDatabase.create_test_db idHash (Draw.mk 1 1 10) (Draw.mk 2 2 20) (Draw.mk 3 3 30)
        (Draw.mk 4 4 40) (Draw.mk 5 5 50) (Draw.mk 6 6 60)) ∧
    EmailsDistinct
      (UserDatabase.add_user idHash 99 (UserBuilder.mk (some "Zoe") (some "z@x.com") (some "pw"))
        (UserDatabase.create_test_db idHash (Draw.mk 1 1 10) (Draw.mk 2 2 20) (Draw.mk 3 3 30)
          (Draw.mk 4 4 40) (Draw.mk 5 5 50) (Draw.mk 6 6 60))).2 :=
  ⟨by decide,
   reachable_emails_distinct
     (UserDatabase.create_test_db idHash (Draw.mk 1 1 10) (Draw.mk 2 2 20) (Draw.mk 3 3 30)
       (Draw.mk 4 4 40) (Draw.mk 5 5 50) (Draw.mk 6 6 60))
     _ (by decide)
     (ReachableFrom.step ReachableFrom.refl
       (DbStep.add idHash 99 (UserBuilder.mk (some "Zoe") (some "z@x.com") (some "pw"))
         (UserDatabase.create_test_db idHash (Draw.mk 1 1 10) (Draw.mk 2 2 20) (Draw.mk 3 3 30)
           (Draw.mk 4 4 40) (Draw.mk 5 5 50) (Draw.mk 6 6 60))))⟩
